import Mathlib

/-!
Verification of the pull-request review pipeline: a shallow embedding of
`src/main.ts` and `src/services/codeReviewService.ts`, together with proofs
of the behavioural properties stated for them.

External capabilities (the GitHub file listing, the comment posting, the
language-model client and the filename→language lookup) are parameters of
the embedded functions, exactly as the source consumes them through
dependency-injection tags.  The `parse-diff` library is likewise a
parameter; the hypotheses of the theorems record the behaviour assumed of
it at the relevant inputs.  Asynchronous effects carry no observable state
here beyond success/failure and the calls made, so an `Effect` value is
embedded as an `Except` result paired, where a claim needs it, with the
number of capability invocations.
-/

/-- One changed file of the pull request, as handed over by the file-listing
capability (`PullRequestFile` of `pullRequestService`): restricted to the
fields the reviewed code reads.  `patch` is `none` when the file carries no
textual diff (`file.patch === undefined`). -/
structure PullRequestFile where
  filename : String
  patch : Option String
deriving DecidableEq, Repr

/-- One hunk of a parsed unified diff, as produced by `parse-diff`:
only its `content` is read by the code. -/
structure DiffChunk where
  content : String
deriving DecidableEq, Repr

/-- One file entry of a parsed unified diff (`parse-diff`): only its
`chunks` are read by the code. -/
structure FileDiff where
  chunks : List DiffChunk
deriving DecidableEq, Repr

/-- The variable assignment passed to `this.chain.call({ lang, diff })`.
`diff` is an `Option` because `codeReviewFor` passes `file.patch`, which may
be `undefined`. -/
structure ChainInput where
  lang : String
  diff : Option String
deriving DecidableEq, Repr

/-- The failure channel of the embedded pipeline.  `detectionFailed` is the
`NoSuchElementException` of language detection; `undefinedFileDiff` is the
defect raised when `parseDiff(file.patch)[0]` is `undefined` and `fd.chunks`
is read from it; the remaining constructors carry the message of a failed
capability call (`UnknownException` and friends). -/
inductive RunError where
  | detectionFailed
  | undefinedFileDiff
  | modelFailure (msg : String)
  | listFailure (msg : String)
  | postFailure (msg : String)
deriving DecidableEq, Repr

/-- Modelled from the spec: the Retry Policy `exponentialBackoffWithJitter`
lives in `src/httpUtils.ts`, which is not among the provided sources.  Per
the spec (§4.3), the wrapped operation is attempted on attempts `k`,
`k + 1`, … while the remaining budget lasts, short-circuiting on the first
success and propagating the final attempt's error unchanged; the sleep
delays affect timing only and are omitted.  The result is paired with the
number of invocations made. -/
def retryGo (op : Nat → Except ε α) (k : Nat) : Nat → Except ε α × Nat
  | 0 => (op k, 1)
  | n + 1 =>
    match op k with
    | .ok a => (.ok a, 1)
    | .error _ =>
      let r := retryGo op (k + 1) n
      (r.1, r.2 + 1)

/-- Modelled from the spec: `withRetry op maxAttempts` starts at attempt 1
with `maxAttempts - 1` retries remaining, so the operation is invoked at
most `maxAttempts` times in total. -/
def withRetry (op : Nat → Except ε α) (maxAttempts : Nat) : Except ε α × Nat :=
  retryGo op 1 (maxAttempts - 1)

/-- Embedding of `CodeReviewServiceImpl.codeReviewFor`: resolve the language
for `file.filename`, then call the model on `{ lang, diff: file.patch }`
wrapped in the Retry Policy with attempt bound 3.  The model capability is a
function of the chain input and the attempt number (a transient failure may
differ between attempts); the second component counts its invocations. -/
def codeReviewFor (detect : String → Option String)
    (model : ChainInput → Nat → Except String String)
    (file : PullRequestFile) : Except RunError String × Nat :=
  match detect file.filename with
  | none => (.error .detectionFailed, 0)
  | some lang =>
    let r := withRetry (fun k => model ⟨lang, file.patch⟩ k) 3
    (match r.1 with
     | .ok a => .ok a
     | .error e => .error (.modelFailure e), r.2)

/-- Embedding of `Effect.all(fd.chunks.map(chunk => tryPromise(chain.call
({ lang, diff: chunk.content }))))`: the chunk calls are made positionally,
each exactly once with no retry (attempt index 1), and the first failure
fails the whole computation.  The second component counts the model
invocations made. -/
def runChunks (model : ChainInput → Nat → Except String String) (lang : String) :
    List DiffChunk → Except RunError (List String) × Nat
  | [] => (.ok [], 0)
  | c :: cs =>
    match model ⟨lang, some c.content⟩ 1 with
    | .error e => (.error (.modelFailure e), 1)
    | .ok r =>
      match runChunks model lang cs with
      | (.ok rs, n) => (.ok (r :: rs), n + 1)
      | (.error e, n) => (.error e, n + 1)

/-- Embedding of `CodeReviewServiceImpl.codeReviewForChunks`: resolve the
language, take the FIRST file entry of `parseDiff(file.patch)` (the `[0]`
index), and review its chunks.  When the parse yields no entry, the indexed
element is `undefined` and reading `fd.chunks` from it is a defect,
embedded as `RunError.undefinedFileDiff`. -/
def codeReviewForChunks (detect : String → Option String)
    (parseDiff : Option String → List FileDiff)
    (model : ChainInput → Nat → Except String String)
    (file : PullRequestFile) : Except RunError (List String) × Nat :=
  match detect file.filename with
  | none => (.error .detectionFailed, 0)
  | some lang =>
    match (parseDiff file.patch).head? with
    | none => (.error .undefinedFileDiff, 0)
    | some fd => runChunks model lang fd.chunks

/-- The system-message template of `chatPrompt`
(`SystemMessagePromptTemplate.fromTemplate`), transcribed verbatim; it
contains no placeholder. -/
def systemText : String :=
  "Act as an empathetic software engineer that's an expert in designing and developing web application softwares using Java, Springboot framwork and AppDynamics Integration (.yml), and adhering to best practices of software design and architecture.\n      You are also an expert in sumarizing the review comments in the form of a predefined report for each and every coding guideline."


/-- The human-message template of `chatPrompt`
(`HumanMessagePromptTemplate.fromTemplate`), transcribed verbatim: the text
before its `{lang}` placeholder. -/
def humanA : String :=
  "Your task is to review a Pull Request. You will receive a git diff.\n"
  ++ "    Review it and suggest any improvements in code quality, maintainability, readability, performance, security, etc.\n"
  ++ "    Identify any potential bugs or security vulnerabilities. After reviewing the code, provide a summary report for each coding guideline if it was followed in the code or not.\n"
  ++ "    You can refer the following example for a summary report having columns - Code Review checklist, Implemented and Summarization.\n"
  ++ "    For the Summarization column, add a note on the overall coverage of the respective guideline in the given file.\n"
  ++ "    Also, provide the report in a tabular format against coding guidelines, at the end of each file in the git diff:\n"
  ++ "    Example:  Code review checklist\tImplemented Summarization\n"
  ++ "SOLID principles\tNo\n"
  ++ "Java Coding Guidelines:\n"
  ++ "Naming Conventions\tNo\n"
  ++ "Indentation and Formatting\tNo\n"
  ++ "Comments and Documentation\tYes\n"
  ++ "Include remaining points here from Java coding guidelines\n"
  ++ "Springboot Coding Guidelines:\n"
  ++ "Project Structure:\tYes\n"
  ++ "Dependency Injection\tYes\n"
  ++ "RESTful APIs\tNo\n"
  ++ "Exception Handling\tNo\n"
  ++ "Include remaining points here from Spring boot coding guidelines\n"
  ++ "\n"
  ++ "Verify that the code adheres to the following design patterns and coding guidelines for Java, Springboot and AppDynamics Integration (.yml), and suggest code improvements accordingly.\n"
  ++ "-Design Patterns:\n"
  ++ "1. You have to check if the code follows SOLID principles (Single Responsibility, Open/Closed, Liskov Substitution, Interface Segregation, Dependency Inversion). If not used, suggest how to refactor the code to follow these principles.\n"
  ++ "-Java Coding Guidelines:\n"
  ++ "1.Naming Conventions:\n"
  ++ "a.Class names should be nouns and start with an uppercase letter (e.g., Car, UserService).\n"
  ++ "b.Method and variable names should be verbs or nouns and start with a lowercase letter (e.g., getUser(), firstName).\n"
  ++ "c.Constants should be all uppercase with underscores separating words (e.g., MAX_SIZE).\n"
  ++ "2.Indentation and Formatting:\n"
  ++ "a.Use 4 spaces for indentation.\n"
  ++ "b.Use braces even for single-line statements in control structures.\n"
  ++ "c.Limit lines to 80-120 characters to improve readability.\n"
  ++ "3.Comments and Documentation:\n"
  ++ "a.Verify that the Javadoc style comments are used for documenting classes, methods, and fields.\n"
  ++ "b.Write clear and concise comments to explain complex algorithms or business logic.\n"
  ++ "4.Exception Handling:\n"
  ++ "a.Use specific exception types rather than catching Exception.\n"
  ++ "b.Handle exceptions appropriately, either by logging or throwing further up the call stack.\n"
  ++ "5.Avoid Magic Numbers and Strings:\n"
  ++ "a.Verify constants are used instead of hardcoding values.\n"
  ++ "b.Verify that strings and numbers are defined as constants at the beginning of the class.\n"
  ++ "6.Immutable Objects:\n"
  ++ "a.Prefer immutability whenever possible.\n"
  ++ "b. Verify to make fields final if they should not change after object creation.\n"
  ++ "7.Use Interfaces and Abstract Classes:\n"
  ++ "a.Verify the use of interfaces for defining contracts and abstract classes for code reuse.\n"
  ++ "b.Prefer composition over inheritance.\n"
  ++ "8.Concurrency:\n"
  ++ "a.Use thread-safe classes and synchronization mechanisms when dealing with concurrent operations.\n"
  ++ "b.Utilize Java's concurrent utilities like ExecutorService and ConcurrentHashMap.\n"
  ++ "-Spring Boot Coding Guidelines:\n"
  ++ "1.Dependency Injection:\n"
  ++ "a.Verify the use of constructor injection wherever possible for better testability and immutability.\n"
  ++ "b.Avoid field injection, prefer setter injection only when required.\n"
  ++ "2.RESTful APIs:\n"
  ++ "a. Verify the RESTful principles are followed for designing APIs.\n"
  ++ "b. Validate the use of appropriate HTTP methods (GET, POST, PUT, DELETE) for CRUD operations.\n"
  ++ "3.Exception Handling:\n"
  ++ "a.Verify that @ControllerAdvice is used for global exception handling.\n"
  ++ "b.Customize error responses using @ExceptionHandler.\n"
  ++ "4.Security:\n"
  ++ "a. Verify that the best practices for password hashing and session management are used.\n"
  ++ "5.Testing:\n"
  ++ "a.Write unit tests for business logic using frameworks like JUnit and Mockito.\n"
  ++ "b.Use Spring Boot's testing annotations (@SpringBootTest, @WebMvcTest, etc.) for integration testing.\n"
  ++ "6.Logging:\n"
  ++ "a.Use a logging framework like Log4j or Logback.\n"
  ++ "b.Log meaningful messages with appropriate log levels.\n"
  ++ "7.Performance:\n"
  ++ "a.Verify that the database queries are optimized using Spring Data JPA's query methods or custom queries.\n"
  ++ "b.Cache data using Spring's caching abstraction (@Cacheable, @CacheEvict).\n"
  ++ "8.Documentation:\n"
  ++ "a.Document API endpoints using Swagger or Spring REST Docs.\n"
  ++ "b.Include clear descriptions, request/response examples, and error handling details.\n"
  ++ "- AppDynamics Integration (.yml) Coding Guidelines:\n"
  ++ "a.Verify the parameters - appdAgentAppName , appdAgentTierName, appdPlan are defined.\n"
  ++ "b.Verify that the name for appdAgentTierName follows the naming convention as:  Application name-Application EAI number (for example: FXO-Document-Metadata-Service-3538226 where FXO-Document-Metadata-Service is the application name and 3538226 is the EAI number)\n"
  ++ "\n"
  ++ "Write your reply and examples in GitHub Markdown format.\n"
  ++ "The programming language in the git diff is "


/-- The text of the human-message template between its `{lang}` and `{diff}`
placeholders; the template ends directly after `{diff}`. -/
def humanB : String := ".\n\n    git diff to review\n\n    "

/-- One piece of a prompt template as langchain's f-string format parses it:
literal text, or a `\x7bname\x7d` placeholder. -/
inductive TmplPiece where
  | lit (s : String)
  | txtvar (v : String)
deriving DecidableEq, Repr

/-- The parsed system-message template: literal text only. -/
def systemPieces : List TmplPiece := [.lit systemText]

/-- The parsed human-message template: its two placeholders are `lang` and
`diff`, in that order, and the template ends directly after `diff`. -/
def humanPieces : List TmplPiece :=
  [.lit humanA, .txtvar "lang", .lit humanB, .txtvar "diff"]

/-- Rendering of one template piece under the variable assignment
`\x7b lang, diff \x7d` that `chain.call` receives: a placeholder other than the two
provided variables cannot be resolved and rendering fails. -/
def renderPiece (lang diff : String) : TmplPiece → Option String
  | .lit s => some s
  | .txtvar v => if v = "lang" then some lang else if v = "diff" then some diff else none

/-- Rendering of a whole template: the concatenation of its rendered pieces,
failing if any placeholder is unresolved. -/
def renderPieces (lang diff : String) : List TmplPiece → Option String
  | [] => some ""
  | [p] => renderPiece lang diff p
  | p :: ps =>
    match renderPiece lang diff p, renderPieces lang diff ps with
    | some s, some r => some (s ++ r)
    | _, _ => none

/-- The full chat prompt `chain.call` renders from its input: the rendered
system message and the rendered human message.  `none` when the `diff`
variable is `undefined` or a placeholder is unresolved. -/
def renderChatPrompt (inp : ChainInput) : Option (String × String) :=
  match inp.diff with
  | none => none
  | some d =>
    match renderPieces inp.lang d systemPieces, renderPieces inp.lang d humanPieces with
    | some s, some h => some (s, h)
    | _, _ => none

/-- JavaScript `String.prototype.split` with a one-character separator,
on the character list of the string: splitting an empty list yields the
one-element list containing the empty piece, as `"".split(',')` yields
`[""]`. -/
def splitChar (sep : Char) : List Char → List (List Char)
  | [] => [[]]
  | c :: rest =>
    match splitChar sep rest with
    | [] => [[]]
    | g :: gs => if c = sep then [] :: g :: gs else (c :: g) :: gs

/-- JavaScript `String.prototype.trim` on a character list: leading and
trailing whitespace removed. -/
def trimChars (cs : List Char) : List Char :=
  ((cs.dropWhile Char.isWhitespace).reverse.dropWhile Char.isWhitespace).reverse

/-- Embedding of `core.getInput('exclude_files').split(',').map(_ => _.trim())`
from `run` in `main.ts`. -/
def excludePatterns (raw : String) : List String :=
  (splitChar ',' raw.toList).map (fun cs => String.mk (trimChars cs))

/-- The already-resolved inputs and event context of one `run` of the
action: the triggering event name, the raw `exclude_files` input, the
repository coordinates and the head sha of the pull request payload. -/
structure RunConfig where
  eventName : String
  excludeFilesInput : String
  repo : String
  owner : String
  pullNumber : Nat
  commitSha : Option String
deriving DecidableEq, Repr

/-- The argument object of `pullRequestService.createReviewComment`, as
built in `run`. -/
structure CommentReq where
  repo : String
  owner : String
  pull_number : Nat
  commit_id : Option String
  path : String
  body : String
  subject_type : String
deriving DecidableEq, Repr

/-- The review-comment request `run` builds for one reviewed file and the
model's response text. -/
def mkComment (cfg : RunConfig) (file : PullRequestFile) (text : String) : CommentReq :=
  { repo := cfg.repo, owner := cfg.owner, pull_number := cfg.pullNumber,
    commit_id := cfg.commitSha, path := file.filename, body := text,
    subject_type := "file" }

/-- Modelled from the spec: the run marks the host failed with the
stringified failure cause (`core.setFailed(result.cause.toString())`); the
rendering done by the effect library's `Cause.toString` is not among the
sources, so it is modelled as the failure's carried message. -/
def stringifyCause : RunError → String
  | .detectionFailed => "NoSuchElementException"
  | .undefinedFileDiff => "TypeError: Cannot read properties of undefined"
  | .modelFailure m => m
  | .listFailure m => m
  | .postFailure m => m

/-- The unit of work `run` performs for one filtered file: obtain the
review text via `codeReviewFor`, then post it through
`createReviewComment`; the resulting comment request on success, the first
failure otherwise. -/
def fileStep (detect : String → Option String)
    (model : ChainInput → Nat → Except String String)
    (post : CommentReq → Except String Unit)
    (cfg : RunConfig) (file : PullRequestFile) : Except RunError CommentReq :=
  match (codeReviewFor detect model file).1 with
  | .error e => .error e
  | .ok text =>
    match post (mkComment cfg file text) with
    | .error e => .error (.postFailure e)
    | .ok _ => .ok (mkComment cfg file text)

/-- Embedding of the `Effect.forEach(files, ...)` orchestration loop of
`run`: files are processed in order; for each, the review is generated and
the comment posted; the first failure stops the loop and propagates.  Along
with the outcome it returns the files actually handed to `codeReviewFor`
and the `(file, comment)` pairs for which the posting capability was
invoked. -/
def reviewLoop (detect : String → Option String)
    (model : ChainInput → Nat → Except String String)
    (post : CommentReq → Except String Unit) (cfg : RunConfig) :
    List PullRequestFile →
      Except RunError Unit × List PullRequestFile × List (PullRequestFile × CommentReq)
  | [] => (.ok (), [], [])
  | f :: fs =>
    match (codeReviewFor detect model f).1 with
    | .error e => (.error e, [f], [])
    | .ok text =>
      match post (mkComment cfg f text) with
      | .error e => (.error (.postFailure e), [f], [(f, mkComment cfg f text)])
      | .ok _ =>
        match reviewLoop detect model post cfg fs with
        | (r, rv, ps) => (r, f :: rv, (f, mkComment cfg f text) :: ps)

/-- The observable outcome of one `run`: the message `core.setFailed`
received (if any), the exclude patterns handed to the file-listing
capability (`none` when it was never called), the files handed to
`codeReviewFor`, and the `(file, comment)` pairs handed to the posting
capability. -/
structure RunResult where
  failedWith : Option String
  listedPatterns : Option (List String)
  reviewed : List PullRequestFile
  posted : List (PullRequestFile × CommentReq)
deriving DecidableEq, Repr

/-- Embedding of `run` in `main.ts`: on a `pull_request` event, compute the
exclude patterns, list the files for review, keep those with a defined
`patch`, and run the orchestration loop, marking the host failed with the
stringified cause if the program's exit is a failure; on any other event,
short-circuit and mark the host failed with a message naming the event. -/
def run (cfg : RunConfig)
    (getFiles : List String → Except String (List PullRequestFile))
    (detect : String → Option String)
    (model : ChainInput → Nat → Except String String)
    (post : CommentReq → Except String Unit) : RunResult :=
  if cfg.eventName = "pull_request" then
    let patterns := excludePatterns cfg.excludeFilesInput
    match getFiles patterns with
    | .error e =>
      { failedWith := some (stringifyCause (.listFailure e)),
        listedPatterns := some patterns, reviewed := [], posted := [] }
    | .ok files =>
      match reviewLoop detect model post cfg (files.filter (fun f => f.patch.isSome)) with
      | (.ok _, rv, ps) =>
        { failedWith := none, listedPatterns := some patterns, reviewed := rv, posted := ps }
      | (.error e, rv, ps) =>
        { failedWith := some (stringifyCause e), listedPatterns := some patterns,
          reviewed := rv, posted := ps }
  else
    { failedWith := some ("This action only works on pull_request events. Got: " ++ cfg.eventName),
      listedPatterns := none, reviewed := [], posted := [] }

theorem runChunks_ok (model : ChainInput → Nat → Except String String) (lang : String)
    (res : DiffChunk → String) (cs : List DiffChunk)
    (h : ∀ c ∈ cs, model ⟨lang, some c.content⟩ 1 = .ok (res c)) :
    runChunks model lang cs = (.ok (cs.map res), cs.length) := by
  induction cs with
  | nil => rfl
  | cons c cs ih =>
    have hc := h c (by simp)
    have := ih (fun c' hc' => h c' (by simp [hc']))
    simp [runChunks, hc, this]

theorem runChunks_error (model : ChainInput → Nat → Except String String) (lang : String)
    (res : DiffChunk → String) (c : DiffChunk) (suf : List DiffChunk) (e : String)
    (hc : model ⟨lang, some c.content⟩ 1 = .error e) (pre : List DiffChunk)
    (hpre : ∀ c' ∈ pre, model ⟨lang, some c'.content⟩ 1 = .ok (res c')) :
    runChunks model lang (pre ++ c :: suf) = (.error (.modelFailure e), pre.length + 1) := by
  induction pre with
  | nil => simp [runChunks, hc]
  | cons p ps ih =>
    have hp := hpre p (by simp)
    have := ih (fun c' hc' => hpre c' (by simp [hc']))
    simp [runChunks, hp, this]

/-- C2: for a patch parsing into H hunks, `codeReviewForChunks` issues one
model request per hunk and returns exactly H results, paired by position
with their hunks and emitted in the original chunk order of the patch. -/
theorem codeReviewForChunks_one_request_per_hunk (detect : String → Option String)
    (parseDiff : Option String → List FileDiff)
    (model : ChainInput → Nat → Except String String) (file : PullRequestFile)
    (lang : String) (fd : FileDiff) (rest : List FileDiff) (res : DiffChunk → String)
    (hdet : detect file.filename = some lang)
    (hparse : parseDiff file.patch = fd :: rest)
    (hres : ∀ c ∈ fd.chunks, model ⟨lang, some c.content⟩ 1 = .ok (res c)) :
    codeReviewForChunks detect parseDiff model file
      = (.ok (fd.chunks.map res), fd.chunks.length) := by
  simp [codeReviewForChunks, hdet, hparse, runChunks_ok model lang res fd.chunks hres]

/-- Witness for C2: a two-hunk patch yields two results in hunk order, with
two model requests. -/
theorem codeReviewForChunks_one_request_per_hunk_witness :
    codeReviewForChunks (fun _ => some "Java")
      (fun _ => [⟨[⟨"chunk one"⟩, ⟨"chunk two"⟩]⟩])
      (fun inp _ => .ok ("R:" ++ inp.diff.getD "")) ⟨"Main.java", some "patch"⟩
      = (.ok ["R:chunk one", "R:chunk two"], 2) := by
  have h := codeReviewForChunks_one_request_per_hunk (fun _ => some "Java")
    (fun _ => [⟨[⟨"chunk one"⟩, ⟨"chunk two"⟩]⟩])
    (fun inp _ => .ok ("R:" ++ inp.diff.getD "")) ⟨"Main.java", some "patch"⟩
    "Java" ⟨[⟨"chunk one"⟩, ⟨"chunk two"⟩]⟩ [] (fun c => "R:" ++ c.content)
    rfl rfl (fun c _ => rfl)
  simpa using h

/-- C3: for a file whose patch is empty or absent (so that `parse-diff`
yields no file entry), `codeReviewForChunks` fails the whole chunked review
rather than returning an empty sequence of results. -/
theorem codeReviewForChunks_empty_patch_fails (detect : String → Option String)
    (parseDiff : Option String → List FileDiff)
    (model : ChainInput → Nat → Except String String) (file : PullRequestFile)
    (lang : String)
    (hdet : detect file.filename = some lang)
    (_hpatch : file.patch = none ∨ file.patch = some "")
    (hparse : parseDiff file.patch = []) :
    codeReviewForChunks detect parseDiff model file = (.error .undefinedFileDiff, 0) ∧
    ∀ rs n, codeReviewForChunks detect parseDiff model file ≠ (.ok rs, n) := by
  have h : codeReviewForChunks detect parseDiff model file = (.error .undefinedFileDiff, 0) := by
    simp [codeReviewForChunks, hdet, hparse]
  exact ⟨h, fun rs n hne => by simp [h] at hne⟩

/-- Witness for C3: an absent patch that parses to no file entry fails the
chunked review with the undefined-file-diff defect. -/
theorem codeReviewForChunks_empty_patch_fails_witness :
    codeReviewForChunks (fun _ => some "Java") (fun _ => [])
      (fun _ _ => .ok "ok") ⟨"Main.java", none⟩ = (.error .undefinedFileDiff, 0) :=
  (codeReviewForChunks_empty_patch_fails (fun _ => some "Java") (fun _ => [])
    (fun _ _ => .ok "ok") ⟨"Main.java", none⟩ "Java" rfl (Or.inl rfl) rfl).1

/-- C8: `codeReviewForChunks` reads only the first file entry of the parsed
diff: when the patch parses into two or more file entries, the result is the
same as if the parse had yielded the first entry alone, so every later
entry's chunks are silently ignored. -/
theorem codeReviewForChunks_first_entry_only (detect : String → Option String)
    (parseDiff : Option String → List FileDiff)
    (model : ChainInput → Nat → Except String String) (file : PullRequestFile)
    (lang : String) (fd1 fd2 : FileDiff) (rest : List FileDiff)
    (hdet : detect file.filename = some lang)
    (hparse : parseDiff file.patch = fd1 :: fd2 :: rest) :
    codeReviewForChunks detect parseDiff model file
      = codeReviewForChunks detect (fun _ => [fd1]) model file := by
  simp [codeReviewForChunks, hdet, hparse]

/-- Witness for C8: with a parse yielding two file entries, the chunked
review equals the review of the first entry alone. -/
theorem codeReviewForChunks_first_entry_only_witness :
    codeReviewForChunks (fun _ => some "Java")
      (fun _ => [⟨[⟨"first file hunk"⟩]⟩, ⟨[⟨"second file hunk"⟩]⟩])
      (fun inp _ => .ok ("R:" ++ inp.diff.getD "")) ⟨"Main.java", some "patch"⟩
      = codeReviewForChunks (fun _ => some "Java") (fun _ => [⟨[⟨"first file hunk"⟩]⟩])
          (fun inp _ => .ok ("R:" ++ inp.diff.getD "")) ⟨"Main.java", some "patch"⟩ :=
  codeReviewForChunks_first_entry_only (fun _ => some "Java")
    (fun _ => [⟨[⟨"first file hunk"⟩]⟩, ⟨[⟨"second file hunk"⟩]⟩])
    (fun inp _ => .ok ("R:" ++ inp.diff.getD "")) ⟨"Main.java", some "patch"⟩
    "Java" ⟨[⟨"first file hunk"⟩]⟩ ⟨[⟨"second file hunk"⟩]⟩ [] rfl rfl

/-- C9: in `codeReviewForChunks` each chunk's model call is submitted
without retry — the failing chunk is invoked exactly once, after one call
per preceding chunk — and a single chunk's failure fails the whole chunked
review with no partial sequence of the other chunks' results. -/
theorem codeReviewForChunks_chunk_failure (detect : String → Option String)
    (parseDiff : Option String → List FileDiff)
    (model : ChainInput → Nat → Except String String) (file : PullRequestFile)
    (lang : String) (fd : FileDiff) (rest : List FileDiff) (res : DiffChunk → String)
    (pre : List DiffChunk) (c : DiffChunk) (suf : List DiffChunk) (e : String)
    (hdet : detect file.filename = some lang)
    (hparse : parseDiff file.patch = fd :: rest)
    (hchunks : fd.chunks = pre ++ c :: suf)
    (hpre : ∀ c' ∈ pre, model ⟨lang, some c'.content⟩ 1 = .ok (res c'))
    (hc : model ⟨lang, some c.content⟩ 1 = .error e) :
    codeReviewForChunks detect parseDiff model file
      = (.error (.modelFailure e), pre.length + 1) ∧
    pre.length + 1 ≤ fd.chunks.length := by
  constructor
  · simp [codeReviewForChunks, hdet, hparse, hchunks,
          runChunks_error model lang res c suf e hc pre hpre]
  · simp [hchunks]

/-- Witness for C9: with three hunks whose second model call fails, the
chunked review fails after exactly two model calls. -/
theorem codeReviewForChunks_chunk_failure_witness :
    codeReviewForChunks (fun _ => some "Java")
      (fun _ => [⟨[⟨"h1"⟩, ⟨"h2"⟩, ⟨"h3"⟩]⟩])
      (fun inp _ => if inp.diff = some "h2" then .error "boom" else .ok "ok")
      ⟨"Main.java", some "patch"⟩
      = (.error (.modelFailure "boom"), 2) := by
  have h := codeReviewForChunks_chunk_failure (fun _ => some "Java")
    (fun _ => [⟨[⟨"h1"⟩, ⟨"h2"⟩, ⟨"h3"⟩]⟩])
    (fun inp _ => if inp.diff = some "h2" then .error "boom" else .ok "ok")
    ⟨"Main.java", some "patch"⟩ "Java" ⟨[⟨"h1"⟩, ⟨"h2"⟩, ⟨"h3"⟩]⟩ []
    (fun _ => "ok") [⟨"h1"⟩] ⟨"h2"⟩ [⟨"h3"⟩] "boom" rfl rfl rfl
    (by intro c' hc'; simp at hc'; simp [hc']) rfl
  simpa using h.1

/-- C7: the chat prompt rendered for a reviewed file's (or chunk's) chain
input resolves every placeholder — the rendering succeeds and equals the
template's literal text with the detected language label and the full diff
text inserted verbatim at the two placeholder positions — while a
placeholder for any variable other than the two provided ones would make
the rendering fail. -/
theorem chatPrompt_placeholders_resolved (lang d : String) :
    renderChatPrompt ⟨lang, some d⟩
      = some (systemText, humanA ++ (lang ++ (humanB ++ d))) ∧
    renderPieces lang d [TmplPiece.txtvar "unresolved"] = none := by
  constructor
  · rfl
  · rfl

/-- C5: on a non-`pull_request` event, `run` performs no file listing and no
review, posts nothing, and ends failed with a message naming the received
event type. -/
theorem run_non_pull_request_short_circuits (cfg : RunConfig)
    (getFiles : List String → Except String (List PullRequestFile))
    (detect : String → Option String)
    (model : ChainInput → Nat → Except String String)
    (post : CommentReq → Except String Unit)
    (hev : cfg.eventName ≠ "pull_request") :
    run cfg getFiles detect model post =
      { failedWith := some ("This action only works on pull_request events. Got: "
            ++ cfg.eventName),
        listedPatterns := none, reviewed := [], posted := [] } := by
  simp [run, hev]

/-- Witness for C5: a `push` event short-circuits with the descriptive
failure message and an empty trace. -/
theorem run_non_pull_request_short_circuits_witness :
    run ⟨"push", "", "repo", "owner", 1, some "sha"⟩ (fun _ => .ok [])
      (fun _ => some "Java") (fun _ _ => .ok "ok") (fun _ => .ok ()) =
      { failedWith := some "This action only works on pull_request events. Got: push",
        listedPatterns := none, reviewed := [], posted := [] } := by
  have h := run_non_pull_request_short_circuits ⟨"push", "", "repo", "owner", 1, some "sha"⟩
    (fun _ => .ok []) (fun _ => some "Java") (fun _ _ => .ok "ok") (fun _ => .ok ())
    (by decide)
  simpa using h

theorem reviewLoop_trace_subset (detect : String → Option String)
    (model : ChainInput → Nat → Except String String)
    (post : CommentReq → Except String Unit) (cfg : RunConfig)
    (fs : List PullRequestFile) :
    (∀ g ∈ (reviewLoop detect model post cfg fs).2.1, g ∈ fs) ∧
    (∀ p ∈ (reviewLoop detect model post cfg fs).2.2, p.1 ∈ fs) := by
  induction fs with
  | nil => simp [reviewLoop]
  | cons f fs ih =>
    rcases h1 : (codeReviewFor detect model f).1 with e | text
    · simp [reviewLoop, h1]
    · rcases h2 : post (mkComment cfg f text) with e | u
      · simp [reviewLoop, h1, h2]
      · rcases h3 : reviewLoop detect model post cfg fs with ⟨r, rv, ps⟩
        rw [h3] at ih
        constructor
        · intro g hg
          simp [reviewLoop, h1, h2, h3] at hg
          rcases hg with hg | hg
          · simp [hg]
          · simp [ih.1 g hg]
        · intro p hp
          simp [reviewLoop, h1, h2, h3] at hp
          rcases hp with hp | hp
          · simp [hp]
          · simp [ih.2 p hp]

/-- C6: a changed file whose patch is absent is excluded from review by the
orchestrator: it is never handed to the review generator and no comment is
posted for it. -/
theorem run_excludes_absent_patch (cfg : RunConfig)
    (getFiles : List String → Except String (List PullRequestFile))
    (detect : String → Option String)
    (model : ChainInput → Nat → Except String String)
    (post : CommentReq → Except String Unit)
    (f : PullRequestFile) (hp : f.patch = none) :
    f ∉ (run cfg getFiles detect model post).reviewed ∧
    ∀ p ∈ (run cfg getFiles detect model post).posted, p.1 ≠ f := by
  by_cases hev : cfg.eventName = "pull_request"
  · rcases hl : getFiles (excludePatterns cfg.excludeFilesInput) with e | files
    · simp [run, hev, hl]
    · have hsub := reviewLoop_trace_subset detect model post cfg
        (files.filter (fun g => g.patch.isSome))
      rcases hr : reviewLoop detect model post cfg (files.filter (fun g => g.patch.isSome))
        with ⟨r, rv, ps⟩
      rw [hr] at hsub
      have hnotin : f ∉ files.filter (fun g => g.patch.isSome) := by
        intro hf
        have := List.of_mem_filter hf
        simp [hp] at this
      have h1 : f ∉ rv := fun hf => hnotin (hsub.1 f hf)
      have h2 : ∀ p ∈ ps, p.1 ≠ f := by
        intro p hpp hEq
        exact hnotin (hEq ▸ hsub.2 p hpp)
      rcases r with e | u
      · constructor
        · simpa [run, hev, hl, hr] using h1
        · intro p hpp
          apply h2
          simpa [run, hev, hl, hr] using hpp
      · constructor
        · simpa [run, hev, hl, hr] using h1
        · intro p hpp
          apply h2
          simpa [run, hev, hl, hr] using hpp
  · simp [run, hev]

/-- Witness for C6: a binary file without a patch is not reviewed even
though it is in the listed files. -/
theorem run_excludes_absent_patch_witness :
    (⟨"image.bin", none⟩ : PullRequestFile) ∉
      (run ⟨"pull_request", "", "repo", "owner", 1, some "sha"⟩
        (fun _ => .ok [⟨"image.bin", none⟩, ⟨"Main.java", some "diff"⟩])
        (fun _ => some "Java") (fun _ _ => .ok "ok") (fun _ => .ok ())).reviewed :=
  (run_excludes_absent_patch ⟨"pull_request", "", "repo", "owner", 1, some "sha"⟩
    (fun _ => .ok [⟨"image.bin", none⟩, ⟨"Main.java", some "diff"⟩])
    (fun _ => some "Java") (fun _ _ => .ok "ok") (fun _ => .ok ())
    ⟨"image.bin", none⟩ rfl).1

/-- C10: the exclude-pattern list handed to the file-listing capability is
the comma-split of the `exclude_files` input with each piece trimmed, and an
empty input yields the one-element list containing the empty pattern, not
the empty list. -/
theorem run_exclude_patterns_split_trim (cfg : RunConfig)
    (getFiles : List String → Except String (List PullRequestFile))
    (detect : String → Option String)
    (model : ChainInput → Nat → Except String String)
    (post : CommentReq → Except String Unit)
    (hev : cfg.eventName = "pull_request") :
    (run cfg getFiles detect model post).listedPatterns
      = some ((splitChar ',' cfg.excludeFilesInput.toList).map
          (fun cs => String.mk (trimChars cs))) ∧
    excludePatterns "" = [""] ∧ [""] ≠ ([] : List String) := by
  refine ⟨?_, by decide, by decide⟩
  have key : (run cfg getFiles detect model post).listedPatterns
      = some (excludePatterns cfg.excludeFilesInput) := by
    rcases hl : getFiles (excludePatterns cfg.excludeFilesInput) with e | files
    · simp [run, hev, hl]
    · rcases hr : reviewLoop detect model post cfg (files.filter (fun g => g.patch.isSome))
        with ⟨r, rv, ps⟩
      rcases r with e | u <;> simp [run, hev, hl, hr]
  rw [key]
  simp [excludePatterns]

/-- Witness for C10: with an empty `exclude_files` input the capability
receives the one-element list containing the empty pattern. -/
theorem run_exclude_patterns_split_trim_witness :
    (run ⟨"pull_request", "", "repo", "owner", 1, some "sha"⟩ (fun _ => .ok [])
      (fun _ => some "Java") (fun _ _ => .ok "ok") (fun _ => .ok ())).listedPatterns
      = some [""] := by
  have h := run_exclude_patterns_split_trim ⟨"pull_request", "", "repo", "owner", 1, some "sha"⟩
    (fun _ => .ok []) (fun _ => some "Java") (fun _ _ => .ok "ok") (fun _ => .ok ()) rfl
  simpa using h.1

theorem reviewLoop_fail (detect : String → Option String)
    (model : ChainInput → Nat → Except String String)
    (post : CommentReq → Except String Unit) (cfg : RunConfig)
    (f : PullRequestFile) (rest : List PullRequestFile) (e : RunError)
    (hfail : fileStep detect model post cfg f = .error e)
    (good : List PullRequestFile)
    (hgood : ∀ g ∈ good, ∃ c, fileStep detect model post cfg g = .ok c) :
    ∃ ps, reviewLoop detect model post cfg (good ++ f :: rest)
        = (.error e, good ++ [f], ps) ∧ ∀ p ∈ ps, p.1 ∈ good ++ [f] := by
  induction good with
  | nil =>
    rcases h1 : (codeReviewFor detect model f).1 with e' | text
    · simp only [fileStep, h1] at hfail
      simp only [Except.error.injEq] at hfail
      subst hfail
      refine ⟨[], ?_, by simp⟩
      simp [reviewLoop, h1]
    · simp only [fileStep, h1] at hfail
      rcases h2 : post (mkComment cfg f text) with e2 | u
      · rw [h2] at hfail
        simp only [Except.error.injEq] at hfail
        refine ⟨[(f, mkComment cfg f text)], ?_, by simp⟩
        simp [reviewLoop, h1, h2, hfail]
      · rw [h2] at hfail
        simp at hfail
  | cons g gs ih =>
    obtain ⟨c, hg⟩ := hgood g (by simp)
    rcases hg1 : (codeReviewFor detect model g).1 with eg | tg
    · simp only [fileStep, hg1] at hg
      simp at hg
    · simp only [fileStep, hg1] at hg
      rcases hg2 : post (mkComment cfg g tg) with eg2 | ug
      · rw [hg2] at hg; simp at hg
      · obtain ⟨ps, hloop, hmem⟩ := ih (fun g' hg' => hgood g' (by simp [hg']))
        refine ⟨(g, mkComment cfg g tg) :: ps, ?_, ?_⟩
        · simp [reviewLoop, hg1, hg2, hloop]
        · intro p hp
          rcases List.mem_cons.mp hp with hp | hp
          · simp [hp]
          · simp only [List.cons_append, List.mem_cons]
            exact Or.inr (hmem p hp)

/-- C4: in the orchestration loop a failure of the review generator or the
comment-posting capability for one file is not swallowed: the first failure
encountered becomes the run's overall failure cause, the host is marked
failed with the stringified cause, only the files up to and including the
failing one are processed, and nothing is posted for the remaining files. -/
theorem run_fail_fast (cfg : RunConfig)
    (getFiles : List String → Except String (List PullRequestFile))
    (detect : String → Option String)
    (model : ChainInput → Nat → Except String String)
    (post : CommentReq → Except String Unit)
    (files good : List PullRequestFile) (f : PullRequestFile)
    (rest : List PullRequestFile) (e : RunError)
    (hev : cfg.eventName = "pull_request")
    (hfiles : getFiles (excludePatterns cfg.excludeFilesInput) = .ok files)
    (hsplit : files.filter (fun g => g.patch.isSome) = good ++ f :: rest)
    (hgood : ∀ g ∈ good, ∃ c, fileStep detect model post cfg g = .ok c)
    (hfail : fileStep detect model post cfg f = .error e) :
    (run cfg getFiles detect model post).failedWith = some (stringifyCause e) ∧
    (run cfg getFiles detect model post).reviewed = good ++ [f] ∧
    ∀ p ∈ (run cfg getFiles detect model post).posted, p.1 ∈ good ++ [f] := by
  obtain ⟨ps, hloop, hmem⟩ := reviewLoop_fail detect model post cfg f rest e hfail good hgood
  have hrun : run cfg getFiles detect model post =
      { failedWith := some (stringifyCause e),
        listedPatterns := some (excludePatterns cfg.excludeFilesInput),
        reviewed := good ++ [f], posted := ps } := by
    simp [run, hev, hfiles, hsplit, hloop]
  rw [hrun]
  exact ⟨rfl, rfl, hmem⟩

/-- Witness for C4: with two eligible files whose first reviews fine and
whose second's model call fails on every attempt, the run ends failed with
that error, the third file behind it is never reviewed, and only the first
file's comment is posted. -/
theorem run_fail_fast_witness :
    (run ⟨"pull_request", "", "repo", "owner", 7, some "sha"⟩
        (fun _ => .ok [⟨"A.java", some "da"⟩, ⟨"B.java", some "db"⟩, ⟨"C.java", some "dc"⟩])
        (fun _ => some "Java")
        (fun inp _ => if inp.diff = some "db" then .error "model down" else .ok "fine")
        (fun _ => .ok ())).failedWith = some "model down" ∧
    (run ⟨"pull_request", "", "repo", "owner", 7, some "sha"⟩
        (fun _ => .ok [⟨"A.java", some "da"⟩, ⟨"B.java", some "db"⟩, ⟨"C.java", some "dc"⟩])
        (fun _ => some "Java")
        (fun inp _ => if inp.diff = some "db" then .error "model down" else .ok "fine")
        (fun _ => .ok ())).reviewed = [⟨"A.java", some "da"⟩, ⟨"B.java", some "db"⟩] := by
  have h := run_fail_fast ⟨"pull_request", "", "repo", "owner", 7, some "sha"⟩
    (fun _ => .ok [⟨"A.java", some "da"⟩, ⟨"B.java", some "db"⟩, ⟨"C.java", some "dc"⟩])
    (fun _ => some "Java")
    (fun inp _ => if inp.diff = some "db" then .error "model down" else .ok "fine")
    (fun _ => .ok ())
    [⟨"A.java", some "da"⟩, ⟨"B.java", some "db"⟩, ⟨"C.java", some "dc"⟩]
    [⟨"A.java", some "da"⟩] ⟨"B.java", some "db"⟩ [⟨"C.java", some "dc"⟩]
    (.modelFailure "model down") rfl rfl (by rfl)
    (by intro g hg; simp at hg; subst hg
        exact ⟨_, rfl⟩)
    (by rfl)
  exact ⟨h.1, h.2.1⟩

/-- C1: in `codeReviewFor` the model call is wrapped in the Retry Policy with
attempt bound 3: an operation that fails on all attempts is invoked exactly 3
times and the propagated error is the last attempt's error; an operation
that first succeeds on attempt k ≤ 3 is invoked exactly k times and that
attempt's result is returned. -/
theorem codeReviewFor_retry_policy (detect : String → Option String)
    (model : ChainInput → Nat → Except String String)
    (file : PullRequestFile) (lang : String)
    (hdet : detect file.filename = some lang) :
    (∀ e1 e2 e3,
        model ⟨lang, file.patch⟩ 1 = .error e1 →
        model ⟨lang, file.patch⟩ 2 = .error e2 →
        model ⟨lang, file.patch⟩ 3 = .error e3 →
        codeReviewFor detect model file = (.error (.modelFailure e3), 3)) ∧
    (∀ r, model ⟨lang, file.patch⟩ 1 = .ok r →
        codeReviewFor detect model file = (.ok r, 1)) ∧
    (∀ e1 r, model ⟨lang, file.patch⟩ 1 = .error e1 →
        model ⟨lang, file.patch⟩ 2 = .ok r →
        codeReviewFor detect model file = (.ok r, 2)) ∧
    (∀ e1 e2 r, model ⟨lang, file.patch⟩ 1 = .error e1 →
        model ⟨lang, file.patch⟩ 2 = .error e2 →
        model ⟨lang, file.patch⟩ 3 = .ok r →
        codeReviewFor detect model file = (.ok r, 3)) := by
  refine ⟨?_, ?_, ?_, ?_⟩ <;>
  · intros
    simp_all [codeReviewFor, withRetry, retryGo, hdet]

/-- Witness for C1: a model that fails on the first two attempts and succeeds
on the third is invoked exactly 3 times and the third attempt's text is
returned. -/
theorem codeReviewFor_retry_policy_witness :
    codeReviewFor (fun _ => some "Java")
      (fun _ k => if k < 3 then .error ("boom " ++ toString k) else .ok "review text")
      ⟨"Main.java", some "diff text"⟩ = (.ok "review text", 3) := by
  have h := codeReviewFor_retry_policy (fun _ => some "Java")
    (fun _ k => if k < 3 then .error ("boom " ++ toString k) else .ok "review text")
    ⟨"Main.java", some "diff text"⟩ "Java" rfl
  exact h.2.2.2 _ _ _ rfl rfl rfl
